import Mathlib

/-!
Verification development for the NeuralProphet plotting excerpt
(`neuralprophet/plot_forecast_plotly.py` and `neuralprophet/plot_model_parameters.py`).

The Python code is shallowly embedded below.  Numeric data values are
modelled as rationals (`ℚ`); a pandas/numpy "NaN" (absent value) is
modelled as `none : Option ℚ`.  Forecast tables are columnar: a list of
timestamps (`ds`, in minutes since a reference origin), a list of column
names, and a lookup from column name to the column's value list.  A column
that is looked up must be present in the real dataframe (pandas raises
`KeyError` otherwise); theorems only ever access columns their hypotheses
assume to be aligned with `ds`.

The plotting backends (plotly / matplotlib) are external to the excerpt:
a trace is embedded as the data actually handed to the backend (the
y-values, bar/line mode, fill mode, opacity and legend flag), which is
exactly what the specification's claims quantify over.
-/

namespace NPViz

/-- Substring occurrence test, mirroring Python's `pat in s`.
`leadsWith p s` holds when `p` is an initial segment of `s`. -/
def leadsWith : List Char → List Char → Bool
  | [], _ => true
  | _ :: _, [] => false
  | p :: ps, c :: cs => p == c && leadsWith ps cs

/-- Does `pat` occur contiguously inside `s`? -/
def hasSub (pat : List Char) : List Char → Bool
  | [] => leadsWith pat []
  | c :: cs => leadsWith pat (c :: cs) || hasSub pat cs

/-- Python's `pat in s` on strings. -/
def strContains (s pat : String) : Bool :=
  hasSub pat.data s.data

/-- Python's `s.lower()`, character by character (the plot names involved
are ASCII). -/
def strLower (s : String) : String :=
  ⟨s.data.map Char.toLower⟩

/-- Python's `s.startswith(pat)`. -/
def strStarts (s pat : String) : Bool :=
  leadsWith pat.data s.data

/-- Boolean row mask selection, mirroring `df.loc[mask]` for an aligned mask. -/
def maskFilter : List Bool → List α → List α
  | true :: ms, x :: xs => x :: maskFilter ms xs
  | false :: ms, _ :: xs => maskFilter ms xs
  | _, _ => []

/-- In-place overwrite of the last entry, mirroring numpy's `y[-1] = v`.
The source raises `IndexError` on an empty array; theorems that rely on the
last entry assume the list is nonempty. -/
def setLast (v : α) : List α → List α
  | [] => []
  | [_] => [v]
  | a :: b :: t => a :: setLast v (b :: t)

/-- NaN-propagating subtraction of numpy float arrays, elementwise cell. -/
def osub : Option ℚ → Option ℚ → Option ℚ
  | some a, some b => some (a - b)
  | _, _ => none

/-- A forecast table (`m.predict` output): timestamps, column names, and
per-column values aligned with `ds` (`none` = NaN).  Timestamps are
nonnegative minutes since a reference origin chosen before all data, so
the hour field of a timestamp `t` is `(t / 60) % 24` and its minute field
is `t % 60`. -/
structure FTable where
  ds : List ℕ
  columns : List String
  col : String → List (Option ℚ)

/-- The data of one plotly trace, as handed to the charting backend. -/
structure PlotTrace where
  name : String
  y : List (Option ℚ)
  isBar : Bool
  fillMode : Option String
  opacity : Option ℚ
  showlegend : Bool
deriving Repr, DecidableEq

/-- Output of the per-component renderers: traces plus the y-axis styling
the claims mention (rangemode, percent formatting).  The padded x-axis
range comes from `get_dynamic_axis_range`, which lives in a module outside
this excerpt, and is omitted. -/
structure CompProps where
  traces : List PlotTrace
  rangemode : String
  percentAxis : Bool
deriving Repr, DecidableEq

/-- Centered rolling-window index set used by
`Series.rolling(W, min_periods=1, center=True)`: for output position `i`
the window is `[i + 1 + (W-1)/2 - W, i + (W-1)/2]` clipped to `[0, n)`
(this is pandas' `FixedWindowIndexer` with `offset = (W-1)//2`). -/
def windowAt (W n i : ℕ) : List ℕ :=
  (List.range n).filter (fun j => decide (i + 1 + (W - 1) / 2 ≤ j + W) && decide (j ≤ i + (W - 1) / 2))

/-- Mean of the values of `xs` at the index list `js`. -/
def meanAt (xs : List ℚ) (js : List ℕ) : ℚ :=
  ((js.map (fun j => xs.getD j 0)).sum) / (js.length : ℚ)

/-- Embedding of `fcst[comp].rolling(rolling, min_periods=1, center=True).mean()`
on a column with no NaNs (the renderer applies it after dropping NaN rows). -/
def rollingMeanCenter (W : ℕ) (xs : List ℚ) : List ℚ :=
  (List.range xs.length).map (fun i => meanAt xs (windowAt W xs.length i))

/-- The index window described by the spec: the `W` indices centered at `i`
(`W/2` to the left, `(W-1)/2` to the right), clipped to the available data. -/
def centeredWindow (W n i : ℕ) : List ℕ :=
  (List.range n).filter (fun j => decide (i - W / 2 ≤ j) && decide (j ≤ i + (W - 1) / 2))

/-- Mean over the clipped centered window (minimum period one). -/
def centeredClippedMean (W : ℕ) (xs : List ℚ) (i : ℕ) : ℚ :=
  meanAt xs (centeredWindow W xs.length i)

/-- Residual post-processing shared by both renderers: when the component
name contains `"residual"`, the last drawn value is forced to zero. -/
def residProcess (comp_name : String) (ys : List (Option ℚ)) : List (Option ℚ) :=
  if strContains comp_name "residual" then setLast (some 0) ys else ys

/-- Embedding of `get_forecast_component_props`
(`plot_forecast_plotly.py`, lines 444-605).  Rows whose `comp_name` cell is
NaN are dropped first; an optional rolling-average underlay trace is drawn
at opacity 0.5; residual components have their final value forced to zero;
uncertainty components are redrawn as `comp - yhat{num_overplot or 1}` and,
with `fill`, emitted as a region filled down to zero (`tozeroy`). -/
def get_forecast_component_props (tbl : FTable) (comp_name : String)
    (plot_name : Option String := none) (multiplicative : Bool := false)
    (bar : Bool := false) (rolling : Option ℕ := none) (add_x : Bool := false)
    (fill : Bool := false) (num_overplot : Option ℕ := none) : CompProps :=
  let pname := plot_name.getD comp_name
  let mask := (tbl.col comp_name).map Option.isSome
  let compVals := maskFilter mask (tbl.col comp_name)
  let underlay : List PlotTrace :=
    match rolling with
    | none => []
    | some w =>
      let ravg := (rollingMeanCenter w compVals.reduceOption).map some
      if bar then
        [⟨pname, ravg, true, none, some (1/2), false⟩]
      else
        ⟨pname, ravg, false, none, some (1/2), false⟩ ::
          (if add_x then [⟨pname, compVals, false, none, none, false⟩] else [])
  let y0 := residProcess comp_name compVals
  let y :=
    if strContains (strLower pname) "uncertainty" then
      List.zipWith osub y0 (maskFilter mask (tbl.col ("yhat" ++ toString (num_overplot.getD 1))))
    else y0
  let main : List PlotTrace :=
    if bar then
      [⟨pname, y, true, none, none, false⟩]
    else if strContains (strLower pname) "uncertainty" && fill then
      [⟨comp_name, y, false, some "tozeroy", none, true⟩]
    else
      ⟨pname, y, false, none, none, false⟩ ::
        (if add_x then [⟨pname, compVals, false, none, none, false⟩] else [])
  ⟨underlay ++ main, if comp_name = "trend" then "normal" else "tozero", multiplicative⟩

/-- Row mask used by `get_multiforecast_component_props`: with an overlay
count it keeps rows where horizon 1 or horizon `num_overplot` is non-NaN,
otherwise rows where the component column itself is non-NaN. -/
def mfMask (tbl : FTable) (comp_name : String) : Option ℕ → List Bool
  | some nov =>
      List.zipWith (fun a b => a.isSome || b.isSome)
        (tbl.col (comp_name ++ "1")) (tbl.col (comp_name ++ toString nov))
  | none => (tbl.col comp_name).map Option.isSome

/-- Overlay opacity of `get_multiforecast_component_props` at loop index `i`
(horizon `i + 1`): `alpha_min + alpha_softness * (1 - alpha_min) / (i + 1.0 * alpha_softness)`
with `alpha_min = 0.2` and `alpha_softness = 1.2`. -/
def overlayAlpha (i : ℕ) : ℚ :=
  1/5 + (6/5) * (1 - 1/5) / ((i : ℚ) + 1 * (6/5))

/-- Embedding of `get_multiforecast_component_props`
(`plot_forecast_plotly.py`, lines 608-735).  With an overlay count `N`
it appends one trace per horizon, iterating `i = N-1` down to `0`
(horizon `N` first, horizon `1` last) at opacity `overlayAlpha i`, zeroing
the final value of residual components; without an overlay count (or with
`focus > 1`) it additionally draws the single component column, dropping
NaN rows except for residuals, whose last value is zeroed instead.  The
source also asserts `num_overplot <= len(col_names)`; theorems about this
function carry that bound as a hypothesis. -/
def get_multiforecast_component_props (tbl : FTable) (comp_name : String)
    (plot_name : Option String := none) (multiplicative : Bool := false)
    (bar : Bool := false) (focus : ℕ := 1) (num_overplot : Option ℕ := none) : CompProps :=
  let pname := plot_name.getD comp_name
  let mask := mfMask tbl comp_name num_overplot
  let overlay : List PlotTrace :=
    match num_overplot with
    | none => []
    | some nov =>
        ((List.range nov).reverse).map (fun i =>
          let y := residProcess comp_name (maskFilter mask (tbl.col (comp_name ++ toString (i + 1))))
          ⟨pname, y, bar, none, some (overlayAlpha i), false⟩)
  let single : List PlotTrace :=
    if num_overplot.isNone || decide (focus > 1) then
      let y0 := maskFilter mask (tbl.col comp_name)
      let y := if strContains comp_name "residual" then setLast (some 0) y0
               else y0.filter Option.isSome
      [⟨pname, y, bar, none, none, false⟩]
    else []
  ⟨overlay ++ single, if comp_name = "trend" then "normal" else "tozero", multiplicative⟩

/-- A plot descriptor, the dictionaries built by the component selectors
(`plot_name`, `comp_name`, and the optional `num_overplot` / `bar` /
`multiplicative` / `fill` keys). -/
structure Descriptor where
  plot_name : String
  comp_name : String
  num_overplot : Option ℕ
  bar : Bool
  multiplicative : Bool
  fill : Bool
deriving Repr, DecidableEq

/-- The structural model configuration read by `plot_components`
(`m.model.*` and `m.n_forecasts`). -/
structure PModel where
  config_season : Option (List String)
  n_lags : ℕ
  n_forecasts : ℕ
  config_lagged_regressors : Option (List String)
  quantiles : List ℚ

/-- Label of a quantile column, `"yhat{h} {round(q*100, 1)}%"`.  Python's
one-decimal rounding of the printed level is abstracted as exact rational
rendering; no claim depends on the label text. -/
def pctLabel (h : String) (q : ℚ) : String :=
  "yhat" ++ h ++ " " ++ toString (q * 100) ++ "%"

/-- Embedding of the component selection of `plot_components`
(`plot_forecast_plotly.py`, lines 245-373): trend, then seasonalities,
autoregression, lagged regressors, additive/multiplicative events and
future regressors (only when their columns are present in the table),
residuals (when requested and backed by non-NaN data), then one
`Uncertainty` entry per non-base quantile. -/
def plot_components_selector (m : PModel) (tbl : FTable)
    (forecast_in_focus : Option ℕ) (residuals : Bool) : List Descriptor :=
  let colCount := fun c => ((tbl.col c).filter (fun v => v.isSome)).length
  [⟨"Trend", "trend", none, false, false, false⟩]
  ++ (match m.config_season with
      | none => []
      | some names => names.map (fun n => ⟨n ++ " seasonality", n, none, false, false, false⟩))
  ++ (if m.n_lags > 0 then
        match forecast_in_focus with
        | none => [⟨"Auto-Regression", "ar", some m.n_forecasts, true, false, false⟩]
        | some f => [⟨"AR (" ++ toString f ++ ")-ahead", "ar" ++ toString f, none, false, false, false⟩]
      else [])
  ++ (match m.config_lagged_regressors with
      | none => []
      | some names => names.map (fun nm =>
          match forecast_in_focus with
          | none =>
              ⟨"Lagged Regressor \"" ++ nm ++ "\"", "lagged_regressor_" ++ nm,
               some m.n_forecasts, true, false, false⟩
          | some f =>
              ⟨"Lagged Regressor \"" ++ nm ++ "\" (" ++ toString f ++ ")-ahead",
               "lagged_regressor_" ++ nm ++ toString f, none, false, false, false⟩))
  ++ (if "events_additive" ∈ tbl.columns then
        [⟨"Additive Events", "events_additive", none, false, false, false⟩] else [])
  ++ (if "events_multiplicative" ∈ tbl.columns then
        [⟨"Multiplicative Events", "events_multiplicative", none, false, true, false⟩] else [])
  ++ (if "future_regressors_additive" ∈ tbl.columns then
        [⟨"Additive Future Regressors", "future_regressors_additive", none, false, false, false⟩] else [])
  ++ (if "future_regressors_multiplicative" ∈ tbl.columns then
        [⟨"Multiplicative Future Regressors", "future_regressors_multiplicative", none, false, true, false⟩] else [])
  ++ (if residuals then
        if forecast_in_focus.isNone && decide (m.n_forecasts > 1) then
          (if colCount "residual1" > 0 then
            [⟨"Residuals", "residual", some m.n_forecasts, true, false, false⟩] else [])
        else
          let ahead := forecast_in_focus.getD 1
          (if colCount ("residual" ++ toString ahead) > 0 then
            [⟨"Residuals (" ++ toString ahead ++ ")-ahead", "residual" ++ toString ahead,
              none, true, false, false⟩] else [])
      else [])
  ++ (if m.quantiles.length > 1 then
        match forecast_in_focus with
        | none =>
            (List.range (m.quantiles.length - 1)).map (fun i =>
              ⟨"Uncertainty", pctLabel "1" (m.quantiles.getD (i + 1) 0), none, false, false, true⟩)
        | some f =>
            (List.range (m.quantiles.length - 1)).map (fun i =>
              ⟨"Uncertainty", pctLabel (toString f) (m.quantiles.getD (i + 1) 0),
               some f, false, false, true⟩)
      else [])

/-- Timestamp precision of a table's `ds` column, as probed by
`get_seasonality_props` (`plot_forecast_plotly.py`, lines 767-772). -/
inductive DsPrecision | day | hour | minute
deriving Repr, DecidableEq

/-- The probe `(fcst["ds"].dt.hour == 0).all()` → day precision, else
`(fcst["ds"].dt.minute == 0).all()` → hour precision, else minute
precision.  The hour field of a minute timestamp `t` is `(t / 60) % 24`
(so a timestamp such as 00:30 has hour 0 and still counts toward day
precision, exactly as in the source) and its minute field is `t % 60`.
An empty table counts as day precision, as `all()` of an empty pandas
series is `True`; sub-minute timestamps are not representable at this
resolution (no claim depends on seconds). -/
def dsPrecision (ds : List ℕ) : DsPrecision :=
  if ds.all (fun t => (t / 60) % 24 == 0) then .day
  else if ds.all (fun t => t % 60 == 0) then .hour
  else .minute

/-- Number of synthesized sample points of `get_seasonality_props`:
`floor(period * 24)`, `floor(period * 24 * 24)` or `floor(period * 24 * 60)`
by precision (`period` in days). -/
def plotPoints (period : ℚ) : DsPrecision → ℕ
  | .day => (Int.floor (period * 24)).toNat
  | .hour => (Int.floor (period * 24 * 24)).toNat
  | .minute => (Int.floor (period * 24 * 60)).toNat

/-- A seasonality's configuration together with the external model's
seasonal-component query.  `raw` stands for the composite
`fourier_series(dates, period, resolution)` followed by
`m.model.seasonality(features, name, meta)[:, :, quantile_index]` — a
torch computation outside this excerpt, deterministic in the timestamp for
a fixed component name, quantile and series id (all folded into the
structure).  Timestamps are rational minutes since the origin. -/
structure SeasonModel where
  period : ℚ
  resolution : ℕ
  mode_additive : Bool
  y_scale : String → ℚ
  raw : ℚ → ℚ

/-- Embedding of `predict_season_from_dates`
(`plot_model_parameters.py`, lines 524-543): query the model at each date,
then rescale the whole output by the target's normalization scale when the
seasonality mode is additive. -/
def predict_season_from_dates (m : SeasonModel) (df_name : String) (dates : List ℚ) : List ℚ :=
  let predicted := dates.map m.raw
  if m.mode_additive then predicted.map (fun v => v * m.y_scale df_name) else predicted

/-- Modelled from the spec: `predict_seasonal_components` is a method of
the external forecaster (not in this excerpt; only its call sites are).
Per the spec it is a "pure function of (timestamps, series identifier,
quantile) → value(s)" returning the predicted seasonal contribution at
each timestamp, with additive-mode output rescaled by the target
variable's normalization scale and multiplicative-mode output left
unscaled (spec sections 4.5 and 6). -/
def predict_seasonal_components (m : SeasonModel) (df_name : String) (dates : List ℚ) : List ℚ :=
  dates.map (fun d => if m.mode_additive then m.raw d * m.y_scale df_name else m.raw d)

/-- Output of `get_seasonality_props`: the synthesized one-period date
range, the predicted values drawn, and the period-dependent tick format. -/
structure SeasonProps where
  dates : List ℚ
  y : List ℚ
  tickformat : String
deriving Repr, DecidableEq

/-- Embedding of `get_seasonality_props`
(`plot_forecast_plotly.py`, lines 738-819): synthesize
`np.linspace(start, start + period, plot_points, endpoint=False)` from the
fixed reference start, query the model over it (quick low-level path or
full-prediction path), and pick the tick format from the period. -/
def get_seasonality_props (m : SeasonModel) (tbl : FTable) (df_name : String)
    (quick : Bool) : SeasonProps :=
  let n := plotPoints m.period (dsPrecision tbl.ds)
  let dates := (List.range n).map (fun (j : ℕ) => (j : ℚ) * (m.period * 1440) / (n : ℚ))
  let predicted :=
    if quick then predict_season_from_dates m df_name dates
    else predict_seasonal_components m df_name dates
  let tickformat :=
    if m.period ≤ 2 then "%H:%M"
    else if m.period < 7 then "%A %H:%M"
    else if m.period < 14 then "%A"
    else "%B"
  ⟨dates, predicted, tickformat⟩

/-- Weekday name of `2017-01-01 + d days` (2017-01-01 was a Sunday),
mirroring `pandas.DatetimeIndex.day_name()` for the weekly tick labels. -/
def dayName (d : ℕ) : String :=
  ["Sunday", "Monday", "Tuesday", "Wednesday", "Thursday", "Friday", "Saturday"].getD (d % 7) ""

/-- Data produced by the weekly / yearly seasonality plots: the timestamps
submitted to the model's seasonal-prediction query (minutes since
2017-01-01 00:00), the predicted values drawn, and the x tick labels. -/
structure SeasonPlot where
  queried : List ℚ
  predicted : List ℚ
  tick_labels : List String
deriving Repr, DecidableEq

/-- Embedding of `plot_weekly` (`plot_model_parameters.py`, lines 655-716):
the query range is `pd.date_range("2017-01-01", periods=7*24, freq="H") +
pd.Timedelta(days=weekly_start)` and the tick labels are the day names of
`pd.date_range("2017-01-01", periods=7) + pd.Timedelta(days=weekly_start)`
with the first day repeated at the end. -/
def plot_weekly (m : SeasonModel) (df_name : String) (weekly_start : ℕ) : SeasonPlot :=
  let days_i := (List.range (7 * 24)).map (fun (k : ℕ) => (k : ℚ) * 60 + 1440 * (weekly_start : ℚ))
  let predicted := predict_season_from_dates m df_name days_i
  let days := (List.range 7).map (fun k => dayName (k + weekly_start))
  ⟨days_i, predicted, days ++ [days.headD ""]⟩

/-- Embedding of `plot_yearly` (`plot_model_parameters.py`, lines 592-652):
the query range is `pd.date_range("2017-01-01", periods=365) +
pd.Timedelta(days=yearly_start)`.  The x labels come from a matplotlib
month locator/formatter (rendering machinery, not data) and are left
empty here. -/
def plot_yearly (m : SeasonModel) (df_name : String) (yearly_start : ℕ) : SeasonPlot :=
  let days := (List.range 365).map (fun (k : ℕ) => (k : ℚ) * 1440 + 1440 * (yearly_start : ℚ))
  ⟨days, predict_season_from_dates m df_name days, []⟩

/-- A numpy array: its shape and its (row-major) data. -/
structure NDArr where
  shape : List ℕ
  data : List ℚ
deriving Repr, DecidableEq

/-- Shape after `np.squeeze`: every axis of extent one is removed. -/
def npsqueeze (shape : List ℕ) : List ℕ :=
  shape.filter (fun d => d ≠ 1)

/-- Errors surfaced by `plot_parameters` and its helpers:
`quantileNotFound` models the `ValueError` of
`m.model.quantiles.index(quantile)` on a missing quantile, `notScalar`
the explicit `ValueError("Not scalar " + plot_name)` of
`plot_scalar_weights`. -/
inductive PlotErr
  | quantileNotFound
  | notScalar (plot_name : String)
deriving Repr, DecidableEq

/-- Is an `Except` value a success? -/
def exceptOk : Except ε α → Bool
  | .ok _ => true
  | .error _ => false

/-- One bar value of `plot_scalar_weights`: squeeze the weight array, fail
when more than one dimension remains, and otherwise reduce a weight
vector to the focused entry (`weight[focus - 1]`) or its mean. -/
def scalarValue (focus : Option ℕ) (plot_name : String) (w : NDArr) : Except PlotErr ℚ :=
  let wshape := npsqueeze w.shape
  if wshape.length > 1 then .error (.notScalar plot_name)
  else if wshape.length = 1 && decide (wshape.headD 0 > 1) then
    match focus with
    | some f => .ok (w.data.getD (f - 1) 0)
    | none => .ok (w.data.sum / (w.data.length : ℚ))
  else .ok (w.data.getD 0 0)

/-- The bar values of all named weights, failing on the first non-scalar
weight exactly as the source's loop does. -/
def scalarValues (focus : Option ℕ) (plot_name : String) :
    List (String × NDArr) → Except PlotErr (List (String × ℚ))
  | [] => .ok []
  | nw :: rest =>
    match scalarValue focus plot_name nw.2 with
    | .error e => .error e
    | .ok v =>
      match scalarValues focus plot_name rest with
      | .error e => .error e
      | .ok vs => .ok ((nw.1, v) :: vs)

/-- Embedding of `plot_scalar_weights`
(`plot_model_parameters.py`, lines 388-447): the barplot data, or the
`ValueError` raised when a weight that should be scalar still has more
than one dimension after squeezing. -/
def plot_scalar_weights (weights : List (String × NDArr)) (plot_name : String)
    (focus : Option ℕ) : Except PlotErr (List (String × ℚ)) :=
  scalarValues focus plot_name weights

/-- The model state read and mutated by `plot_parameters`.  The per-group
weight lists are the per-quantile tuples the source collects from the
external accessors `m.model.get_reg_weights` / `m.model.get_event_weights`
/ `m.model.get_covar_weights` (already split by additive/multiplicative
mode, as the source's collection loops do); `y_scale` is the target
variable's normalization scale per series id, from
`m.config_normalization.get_data_params`. -/
structure MModel where
  global_normalization : Bool
  local_data_params : List String
  unknown_data_normalization : Bool
  n_changepoints : ℕ
  config_season : Option (List String)
  n_lags : ℕ
  quantiles : List ℚ
  lagged_vector_regressors : List String
  additive_regressors : List (String × NDArr)
  multiplicative_regressors : List (String × NDArr)
  lagged_scalar_regressors : List (String × NDArr)
  additive_events : List (String × NDArr)
  multiplicative_events : List (String × NDArr)
  y_scale : String → ℚ

/-- The `df_name` resolution of `plot_parameters`
(`plot_model_parameters.py`, lines 79-102): returns the identifier whose
normalization parameters will be used, the value of the model's
`unknown_data_normalization` flag right after resolution, and whether the
call flipped that flag (`overwriting_unknown_data_normalization`). -/
def resolve_df (m : MModel) (df_name : Option String) : String × Bool × Bool :=
  if m.global_normalization then
    (df_name.getD "__df__", m.unknown_data_normalization, false)
  else
    match df_name with
    | none =>
        if m.unknown_data_normalization then ("__df__", true, false)
        else ("__df__", true, true)
    | some s =>
        if s ∈ m.local_data_params then (s, m.unknown_data_normalization, false)
        else if m.unknown_data_normalization then ("__df__", true, false)
        else ("__df__", true, true)

/-- Embedding of the component selection of `plot_parameters`
(`plot_model_parameters.py`, lines 104-196): trend, trend rate change
(when changepoints are configured), seasonalities, the AR lagged-weights
panel, one lagged-weights panel per non-scalar lagged regressor, then one
aggregate panel per nonempty scalar-weight group, in source order. -/
def plot_parameters_components (m : MModel) : List Descriptor :=
  [⟨"Trend", "", none, false, false, false⟩]
  ++ (if m.n_changepoints > 0 then [⟨"Trend Rate Change", "", none, false, false, false⟩] else [])
  ++ (match m.config_season with
      | none => []
      | some names => names.map (fun n => ⟨"seasonality", n, none, false, false, false⟩))
  ++ (if m.n_lags > 0 then [⟨"lagged weights", "AR", none, false, false, false⟩] else [])
  ++ (m.lagged_vector_regressors.map (fun n =>
        ⟨"lagged weights", "Lagged Regressor \"" ++ n ++ "\"", none, false, false, false⟩))
  ++ (if m.additive_regressors.isEmpty then []
      else [⟨"Additive future regressor", "", none, false, false, false⟩])
  ++ (if m.multiplicative_regressors.isEmpty then []
      else [⟨"Multiplicative future regressor", "", none, false, false, false⟩])
  ++ (if m.lagged_scalar_regressors.isEmpty then []
      else [⟨"Lagged scalar regressor", "", none, false, false, false⟩])
  ++ (if m.additive_events.isEmpty then []
      else [⟨"Additive event", "", none, false, false, false⟩])
  ++ (if m.multiplicative_events.isEmpty then []
      else [⟨"Multiplicative event", "", none, false, false, false⟩])

/-- The additive event weights after rescaling by the resolved series'
target scale (`plot_model_parameters.py`, lines 190-192). -/
def scaledAdditiveEvents (m : MModel) (df_used : String) : List (String × NDArr) :=
  m.additive_events.map (fun kv => (kv.1, ⟨kv.2.shape, kv.2.data.map (fun x => x * m.y_scale df_used)⟩))

/-- Rendering of one panel of `plot_parameters`' loop
(`plot_model_parameters.py`, lines 203-237).  The scalar-weight panels run
`plot_scalar_weights` and can raise its `ValueError`; the trend,
seasonality and lagged-weights panels delegate to drawing helpers whose
external queries are modelled as non-failing. -/
def renderPanel (m : MModel) (df_used : String) (focus : Option ℕ) (d : Descriptor) :
    Except PlotErr Unit :=
  let pn := strLower d.plot_name
  if pn = "additive future regressor" then
    (plot_scalar_weights m.additive_regressors d.plot_name focus).map (fun _ => ())
  else if pn = "multiplicative future regressor" then
    (plot_scalar_weights m.multiplicative_regressors d.plot_name focus).map (fun _ => ())
  else if pn = "lagged scalar regressor" then
    (plot_scalar_weights m.lagged_scalar_regressors d.plot_name focus).map (fun _ => ())
  else if pn = "additive event" then
    (plot_scalar_weights (scaledAdditiveEvents m df_used) d.plot_name focus).map (fun _ => ())
  else if pn = "multiplicative event" then
    (plot_scalar_weights m.multiplicative_events d.plot_name focus).map (fun _ => ())
  else .ok ()

def renderPanels (m : MModel) (df_used : String) (focus : Option ℕ) :
    List Descriptor → Except PlotErr Unit
  | [] => .ok ()
  | d :: rest =>
    match renderPanel m df_used focus d with
    | .error e => .error e
    | .ok _ => renderPanels m df_used focus rest

/-- Result of a `plot_parameters` call: the returned figure (its panel
list) or the exception, the model's `unknown_data_normalization` flag when
the call terminates, and the series identifier whose normalization
parameters were used. -/
structure PPResult where
  result : Except PlotErr (List Descriptor)
  flag_after : Bool
  df_used : String
deriving Repr

/-- Embedding of `plot_parameters` (`plot_model_parameters.py`,
lines 26-246): resolve the normalization identifier (possibly flipping the
unknown-series flag), select components, fail with a `ValueError` when the
requested quantile is not configured (`quantiles.index` at line 125,
before any figure exists), render the panels, and — only on the successful
path reaching line 242 — reset the flag when the call had flipped it. -/
def plot_parameters (m : MModel) (quantile : ℚ) (df_name : Option String)
    (forecast_in_focus : Option ℕ) : PPResult :=
  let r := resolve_df m df_name
  let comps := plot_parameters_components m
  if quantile ∈ m.quantiles then
    match renderPanels m r.1 forecast_in_focus comps with
    | .error e => ⟨.error e, r.2.1, r.1⟩
    | .ok _ => ⟨.ok comps, if r.2.2 then false else r.2.1, r.1⟩
  else ⟨.error .quantileNotFound, r.2.1, r.1⟩

/-- Per-column sums of absolute values, `np.sum(np.abs(weights), axis=0)`
for a matrix given as a list of rows of width `n`. -/
def sumAbsCols (rows : List (List ℚ)) (n : ℕ) : List ℚ :=
  (List.range n).map (fun j => (rows.map (fun r => |r.getD j 0|)).sum)

/-- A lagged-weights barplot: the bars as (lag number, height) pairs and
the axis labelling choices the source makes. -/
structure LaggedPlot where
  bars : List (ℕ × ℚ)
  ylabel : String
  as_percent : Bool
deriving Repr, DecidableEq

/-- Embedding of `plot_lagged_weights`
(`plot_model_parameters.py`, lines 450-496): bars at lag numbers
`n_lags .. 1`; without a focus the heights are the per-lag sums of
absolute weights normalized by their grand total and the y-axis is
formatted as a percentage ("relevance"); with a focus the raw weights of
row `focus - 1` are drawn unnormalized. -/
def plot_lagged_weights (weights : List (List ℚ)) (comp_name : String)
    (focus : Option ℕ) : LaggedPlot :=
  let n_lags := (weights.headD []).length
  let lags_range := ((List.range n_lags).map (fun k => k + 1)).reverse
  match focus with
  | none =>
      let s := sumAbsCols weights n_lags
      let tot := s.sum
      ⟨lags_range.zip (s.map (fun x => x / tot)), comp_name ++ " relevance", true⟩
  | some f =>
      ⟨lags_range.zip (weights.getD (f - 1) []),
       comp_name ++ " weight (" ++ toString f ++ ")-ahead", false⟩

/-! ### Helper lemmas -/

theorem sum_map_div (l : List ℚ) (t : ℚ) : (l.map (fun x => x / t)).sum = l.sum / t := by
  induction l with
  | nil => simp
  | cons a l ih => simp [ih, add_div]

theorem setLast_eq_dropLast_concat (v : α) :
    ∀ (xs : List α), xs ≠ [] → setLast v xs = xs.dropLast ++ [v]
  | [], h => absurd rfl h
  | [_], _ => rfl
  | a :: b :: t, _ => by
    have ih := setLast_eq_dropLast_concat v (b :: t) (by simp)
    simp [setLast, ih]

theorem setLast_getLast (v : α) (xs : List α) (h : xs ≠ []) :
    (setLast v xs).getLast? = some v := by
  rw [setLast_eq_dropLast_concat v xs h, List.getLast?_concat]

theorem zipWith_osub_maskFilter_self (c : List (Option ℚ)) :
    ∀ v ∈ List.zipWith osub (maskFilter (c.map Option.isSome) c)
        (maskFilter (c.map Option.isSome) c), v = some 0 := by
  induction c with
  | nil => simp [maskFilter]
  | cons a t ih =>
    cases a with
    | none => simpa [maskFilter] using ih
    | some x =>
      intro v hv
      simp only [List.map_cons, Option.isSome_some, maskFilter, List.zipWith_cons_cons] at hv
      rcases List.mem_cons.mp hv with hv | hv
      · simp [hv, osub]
      · exact ih v hv

/-! ### Claim C6 -/

/-- C6: for every seasonality configuration, the seasonality evaluator's
output sequence length equals the number of sample points implied by the
period and the cadence chosen from the table's timestamp precision
(`plotPoints`), and the quick query path (`predict_season_from_dates`, the
low-level seasonality call) and the full-prediction query path
(`predict_seasonal_components`) produce numerically equal predicted
sequences on the same dates, component, quantile and series identifier. -/
theorem C6_seasonality_length_and_path_equivalence (m : SeasonModel) (tbl : FTable)
    (df_name : String) :
    (get_seasonality_props m tbl df_name true).y.length
        = plotPoints m.period (dsPrecision tbl.ds)
  ∧ (get_seasonality_props m tbl df_name false).y.length
        = plotPoints m.period (dsPrecision tbl.ds)
  ∧ (get_seasonality_props m tbl df_name true).y
        = (get_seasonality_props m tbl df_name false).y
  ∧ ∀ dates, predict_season_from_dates m df_name dates
        = predict_seasonal_components m df_name dates := by
  have hpaths : ∀ dates, predict_season_from_dates m df_name dates
      = predict_seasonal_components m df_name dates := by
    intro dates
    cases h : m.mode_additive <;>
      simp [predict_season_from_dates, predict_seasonal_components, h, List.map_map,
        Function.comp]
  refine ⟨?_, ?_, ?_, hpaths⟩
  · cases h : m.mode_additive <;>
      simp only [get_seasonality_props, predict_season_from_dates, h, if_true, if_false,
        Bool.false_eq_true, List.length_map, List.length_range]
  · simp only [get_seasonality_props, predict_seasonal_components, Bool.false_eq_true,
      if_false, List.length_map, List.length_range]
  · simp only [get_seasonality_props, hpaths]
    simp

/-! ### Claim C7 -/

/-- Concrete seasonality instance used to exhibit the weekly query shift. -/
def seasonW : SeasonModel := ⟨7, 3, false, fun _ => 1, fun _ => 0⟩

theorem plot_weekly_queried_head (m : SeasonModel) (df_name : String) (w : ℕ) :
    (plot_weekly m df_name w).queried.head? = some (1440 * (w : ℚ)) := by
  have h : List.range (7 * 24) = 0 :: (List.range 167).map Nat.succ := List.range_succ_eq_map 167
  simp [plot_weekly, h]

/-- C7 counterexample: the claim says the start-day offset leaves the set
of timestamps submitted to the seasonal-prediction query unchanged, but
`plot_weekly` shifts the whole queried date range by the offset: with
`weekly_start = 1` the range starts at 2017-01-02 and no longer contains
the 2017-01-01 00:00 timestamp queried with `weekly_start = 0`. -/
theorem C7_counterexample :
    (plot_weekly seasonW "__df__" 1).queried ≠ (plot_weekly seasonW "__df__" 0).queried
  ∧ (0 : ℚ) ∈ (plot_weekly seasonW "__df__" 0).queried
  ∧ (0 : ℚ) ∉ (plot_weekly seasonW "__df__" 1).queried := by
  refine ⟨?_, ?_, ?_⟩
  · intro h
    have h0 := plot_weekly_queried_head seasonW "__df__" 0
    have h1 := plot_weekly_queried_head seasonW "__df__" 1
    rw [h, h0] at h1
    norm_num at h1
  · simp only [plot_weekly, List.mem_map]
    refine ⟨0, ?_, by norm_num⟩
    simp [List.mem_range]
  · intro hmem
    simp only [plot_weekly, List.mem_map] at hmem
    obtain ⟨k, _, hek⟩ := hmem
    have hk0 : (0 : ℚ) ≤ (k : ℚ) := Nat.cast_nonneg k
    push_cast at hek
    nlinarith [hek]

/-- C7 (amended): the start-day offset of the weekly / yearly seasonality
plots shifts the timestamps submitted to the model's seasonal-prediction
query elementwise by exactly `offset` days, and simultaneously rotates the
displayed weekday labels by the same offset (the labels and the query move
together; the submitted timestamp set is not invariant). -/
theorem C7_amended_offset_shifts_query_and_labels (m : SeasonModel) (df_name : String)
    (w : ℕ) :
    (plot_weekly m df_name w).queried
        = ((plot_weekly m df_name 0).queried).map (fun t => t + 1440 * (w : ℚ))
  ∧ (plot_yearly m df_name w).queried
        = ((plot_yearly m df_name 0).queried).map (fun t => t + 1440 * (w : ℚ))
  ∧ (plot_weekly m df_name w).tick_labels
        = ((List.range 7).map (fun k => dayName (k + w))) ++ [dayName w] := by
  refine ⟨?_, ?_, ?_⟩
  · have h1 : ((fun t => t + 1440 * (w : ℚ)) ∘ fun k : ℕ => (k : ℚ) * 60 + 1440 * ((0 : ℕ) : ℚ))
        = fun k : ℕ => (k : ℚ) * 60 + 1440 * (w : ℚ) := by
      funext k
      simp
    simp [plot_weekly, List.map_map, h1]
  · have h1 : ((fun t => t + 1440 * (w : ℚ)) ∘ fun k : ℕ => (k : ℚ) * 1440 + 1440 * ((0 : ℕ) : ℚ))
        = fun k : ℕ => (k : ℚ) * 1440 + 1440 * (w : ℚ) := by
      funext k
      simp
    simp [plot_yearly, List.map_map, h1]
  · have h7 : List.range 7 = [0, 1, 2, 3, 4, 5, 6] := rfl
    simp [plot_weekly, h7]

/-! ### Claims C2 and C8 -/

/-- A locally-normalized model with no local parameters, a clean
(`false`) unknown-series flag, a single configured quantile and no
regressor/event panels. -/
def mNoRestore : MModel :=
  ⟨false, [], false, 0, none, 0, [1/2], [], [], [], [], [], [], fun _ => 1⟩

/-- C2 counterexample: in local-normalization mode with `df_name = None`
and the unknown-series flag initially `false`, requesting a quantile that
is not configured makes `plot_parameters` raise at
`m.model.quantiles.index(quantile)` — after the flag was flipped to `true`
but before the restore at the end of the function body runs.  The call
terminates exceptionally with the flag still `true`, so the flip does leak
past the call, contradicting the claim's "including when the call
terminates by raising an exception". -/
theorem C2_counterexample :
    mNoRestore.unknown_data_normalization = false
  ∧ exceptOk (plot_parameters mNoRestore (9/10) none none).result = false
  ∧ (plot_parameters mNoRestore (9/10) none none).flag_after = true := by
  have hq : ¬ ((9 : ℚ)/10 ∈ ([1/2] : List ℚ)) := by norm_num
  refine ⟨rfl, ?_, ?_⟩ <;>
    norm_num [plot_parameters, resolve_df, mNoRestore, exceptOk]

/-- C2 (amended): for every `plot_parameters` call in local-normalization
mode with a `df_name` that is `None` or absent from the local
normalization parameters, the call uses the global/default identifier
(`"__df__"`) for its normalization parameters, and whenever the call
terminates normally the model's unknown-series-normalization flag is
restored to its prior value; when the call terminates by raising an
exception the restore (which only runs at the end of the function body)
is skipped and the flag may be left flipped. -/
theorem C2_amended_fallback_and_scoped_restore (m : MModel) (quantile : ℚ)
    (df_name : Option String) (focus : Option ℕ)
    (hloc : m.global_normalization = false)
    (habs : df_name = none ∨ ∃ s, df_name = some s ∧ s ∉ m.local_data_params) :
    (plot_parameters m quantile df_name focus).df_used = "__df__"
  ∧ (exceptOk (plot_parameters m quantile df_name focus).result = true →
      (plot_parameters m quantile df_name focus).flag_after
        = m.unknown_data_normalization) := by
  have hr : resolve_df m df_name = ("__df__", true, !m.unknown_data_normalization) := by
    rcases habs with h | ⟨s, hs, hmem⟩
    · subst h
      cases hu : m.unknown_data_normalization <;> simp [resolve_df, hloc, hu]
    · subst hs
      cases hu : m.unknown_data_normalization <;> simp [resolve_df, hloc, hu, hmem]
  constructor
  · unfold plot_parameters
    rw [hr]
    dsimp only
    split
    · split <;> rfl
    · rfl
  · intro hok
    unfold plot_parameters at hok ⊢
    rw [hr] at hok ⊢
    dsimp only at hok ⊢
    by_cases hqm : quantile ∈ m.quantiles
    · rw [if_pos hqm] at hok ⊢
      cases hrp : renderPanels m "__df__" focus (plot_parameters_components m) with
      | error e =>
        rw [hrp] at hok
        simp [exceptOk] at hok
      | ok u =>
        cases hu : m.unknown_data_normalization <;> simp [hu]
    · rw [if_neg hqm] at hok
      simp [exceptOk] at hok

theorem C2_amended_witness :
    mNoRestore.global_normalization = false
  ∧ ((plot_parameters mNoRestore (1/2) none none).df_used = "__df__"
      ∧ (exceptOk (plot_parameters mNoRestore (1/2) none none).result = true →
          (plot_parameters mNoRestore (1/2) none none).flag_after
            = mNoRestore.unknown_data_normalization)) :=
  ⟨rfl, C2_amended_fallback_and_scoped_restore mNoRestore (1/2) none none rfl (Or.inl rfl)⟩

theorem scalarValue_error_eq (focus : Option ℕ) (pn : String) (w : NDArr) (e : PlotErr)
    (h : scalarValue focus pn w = .error e) : e = .notScalar pn := by
  dsimp only [scalarValue] at h
  by_cases h1 : (npsqueeze w.shape).length > 1
  · rw [if_pos h1] at h
    injection h with h2
    exact h2.symm
  · rw [if_neg h1] at h
    split at h
    · cases focus <;> simp at h
    · simp at h

/-- C8: `plot_parameters` fails immediately (its result is the error, no
figure) whenever the requested quantile is not among the model's
configured quantiles, and `plot_scalar_weights` fails with the
`ValueError("Not scalar ...")` whenever any weight that should be scalar
still has more than one dimension after squeezing. -/
theorem C8_invalid_inputs_rejected :
    (∀ (m : MModel) (quantile : ℚ) (df_name : Option String) (focus : Option ℕ),
      quantile ∉ m.quantiles →
        (plot_parameters m quantile df_name focus).result = .error .quantileNotFound)
  ∧ (∀ (weights : List (String × NDArr)) (plot_name : String) (focus : Option ℕ)
      (nm : String) (w : NDArr),
      (nm, w) ∈ weights → 1 < (npsqueeze w.shape).length →
        plot_scalar_weights weights plot_name focus = .error (.notScalar plot_name)) := by
  constructor
  · intro m q dfn foc h
    simp [plot_parameters, h]
  · intro ws pn foc nm w hmem hbad
    induction ws with
    | nil => cases hmem
    | cons a t ih =>
      rcases List.mem_cons.mp hmem with heq | hmem'
      · subst heq
        simp [plot_scalar_weights, scalarValues, scalarValue, hbad]
      · have ht := ih hmem'
        cases hsv : scalarValue foc pn a.2 with
        | error e =>
          have he := scalarValue_error_eq foc pn a.2 e hsv
          subst he
          simp [plot_scalar_weights, scalarValues, hsv]
        | ok v =>
          simp only [plot_scalar_weights] at ht ⊢
          simp [scalarValues, hsv, ht]

/-- A weight array that is not scalar even after squeezing. -/
def badArr : NDArr := ⟨[2, 3], [1, 2, 3, 4, 5, 6]⟩

theorem C8_witness :
    ((9/10 : ℚ) ∉ mNoRestore.quantiles
      ∧ (plot_parameters mNoRestore (9/10) none none).result = .error .quantileNotFound)
  ∧ (("w", badArr) ∈ [("w", badArr)] ∧ 1 < (npsqueeze badArr.shape).length
      ∧ plot_scalar_weights [("w", badArr)] "Additive event" none
          = .error (.notScalar "Additive event")) :=
  ⟨⟨by norm_num [mNoRestore],
    C8_invalid_inputs_rejected.1 mNoRestore (9/10) none none (by norm_num [mNoRestore])⟩,
   ⟨by simp, by decide,
    C8_invalid_inputs_rejected.2 [("w", badArr)] "Additive event" none "w" badArr
      (by simp) (by decide)⟩⟩

/-! ### Claim C9 -/

/-- C9: with a table containing only the `ds` and `y` columns and a model
with zero trend changepoints, no seasonalities, lags, regressors, events
or extra quantiles, and residual plotting unrequested, both component
selectors return exactly one descriptor: the trend descriptor. -/
theorem C9_trend_only_selection (pm : PModel) (m : MModel) (tbl : FTable)
    (focus : Option ℕ)
    (hcols : tbl.columns = ["ds", "y"])
    (hs : pm.config_season = none) (hl : pm.n_lags = 0)
    (hlr : pm.config_lagged_regressors = none) (hq : pm.quantiles.length = 1)
    (hmc : m.n_changepoints = 0) (hms : m.config_season = none) (hml : m.n_lags = 0)
    (hmv : m.lagged_vector_regressors = [])
    (har : m.additive_regressors = []) (hmr : m.multiplicative_regressors = [])
    (hls : m.lagged_scalar_regressors = []) (hae : m.additive_events = [])
    (hme : m.multiplicative_events = []) :
    plot_components_selector pm tbl focus false
        = [⟨"Trend", "trend", none, false, false, false⟩]
  ∧ plot_parameters_components m = [⟨"Trend", "", none, false, false, false⟩] := by
  constructor
  · simp [plot_components_selector, hcols, hs, hl, hlr, hq]
  · simp [plot_parameters_components, hmc, hms, hml, hmv, har, hmr, hls, hae, hme]

/-- Concrete trend-only instances for the C9 witness. -/
def tblTrendOnly : FTable := ⟨[], ["ds", "y"], fun _ => []⟩

def pmTrendOnly : PModel := ⟨none, 0, 1, none, [1/2]⟩

theorem C9_witness :
    (tblTrendOnly.columns = ["ds", "y"] ∧ pmTrendOnly.config_season = none
      ∧ pmTrendOnly.n_lags = 0 ∧ pmTrendOnly.config_lagged_regressors = none
      ∧ pmTrendOnly.quantiles.length = 1 ∧ mNoRestore.n_changepoints = 0)
  ∧ (plot_components_selector pmTrendOnly tblTrendOnly none false
        = [⟨"Trend", "trend", none, false, false, false⟩]
      ∧ plot_parameters_components mNoRestore
        = [⟨"Trend", "", none, false, false, false⟩]) :=
  ⟨⟨rfl, rfl, rfl, rfl, rfl, rfl⟩,
   C9_trend_only_selection pmTrendOnly mNoRestore tblTrendOnly none rfl rfl rfl rfl rfl
     rfl rfl rfl rfl rfl rfl rfl rfl rfl⟩

/-! ### Claim C10 -/

theorem sumAbsCols_nonneg (rows : List (List ℚ)) (n : ℕ) :
    ∀ x ∈ sumAbsCols rows n, 0 ≤ x := by
  intro x hx
  simp only [sumAbsCols, List.mem_map] at hx
  obtain ⟨j, _, rfl⟩ := hx
  apply List.sum_nonneg
  intro y hy
  simp only [List.mem_map] at hy
  obtain ⟨r, _, rfl⟩ := hy
  exact abs_nonneg _

theorem sumAbsCols_sum_pos (rows : List (List ℚ)) (n : ℕ)
    (hrect : ∀ r ∈ rows, r.length = n)
    (hnz : ∃ r ∈ rows, ∃ x ∈ r, x ≠ 0) :
    0 < (sumAbsCols rows n).sum := by
  obtain ⟨r, hr, x, hx, hxne⟩ := hnz
  obtain ⟨j, hj, hjx⟩ := List.mem_iff_getElem.mp hx
  have hjn : j < n := by rw [← hrect r hr]; exact hj
  have hmem : (rows.map (fun row => |row.getD j 0|)).sum ∈ sumAbsCols rows n := by
    simp only [sumAbsCols, List.mem_map]
    exact ⟨j, List.mem_range.mpr hjn, rfl⟩
  have habs : |x| ≤ (rows.map (fun row => |row.getD j 0|)).sum := by
    have hx' : |r.getD j 0| ∈ rows.map (fun row => |row.getD j 0|) :=
      List.mem_map_of_mem _ hr
    have hrx : r.getD j 0 = x := by rw [List.getD_eq_getElem r 0 hj, hjx]
    rw [hrx] at hx'
    refine List.single_le_sum ?_ _ hx'
    intro y hy
    obtain ⟨rr, _, rfl⟩ := List.mem_map.mp hy
    exact abs_nonneg _
  have hxpos : 0 < |x| := abs_pos.mpr hxne
  have hle : (rows.map (fun row => |row.getD j 0|)).sum ≤ (sumAbsCols rows n).sum :=
    List.single_le_sum (sumAbsCols_nonneg rows n) _ hmem
  linarith

/-- C10: for every lagged weight matrix with at least one nonzero entry,
`plot_lagged_weights` called with `focus = None` draws one bar per lag at
lag numbers `n_lags` down to `1`, whose heights are the per-lag sums of
absolute weights divided by their grand total — hence every height is
nonnegative and the heights sum to exactly 1, displayed as a percentage
"relevance" — whereas with a focus set the raw weights of row `focus - 1`
are drawn unnormalized. -/
theorem C10_lagged_weights_relevance (w : List (List ℚ)) (comp_name : String)
    (hrect : ∀ r ∈ w, r.length = (w.headD []).length)
    (hnz : ∃ r ∈ w, ∃ x ∈ r, x ≠ 0) :
    ((plot_lagged_weights w comp_name none).bars.map Prod.fst
        = ((List.range (w.headD []).length).map (fun k => k + 1)).reverse)
  ∧ (∀ b ∈ (plot_lagged_weights w comp_name none).bars, 0 ≤ b.2)
  ∧ ((plot_lagged_weights w comp_name none).bars.map Prod.snd).sum = 1
  ∧ (plot_lagged_weights w comp_name none).as_percent = true
  ∧ (∀ f : ℕ, (plot_lagged_weights w comp_name (some f)).bars.map Prod.snd
      = w.getD (f - 1) []) := by
  have htotpos : 0 < (sumAbsCols w (w.headD []).length).sum :=
    sumAbsCols_sum_pos w _ hrect hnz
  have hslen : (sumAbsCols w (w.headD []).length).length = (w.headD []).length := by
    simp [sumAbsCols]
  have hllen : (((List.range (w.headD []).length).map (fun k => k + 1)).reverse).length
      = (w.headD []).length := by simp
  have hnormlen : ((sumAbsCols w (w.headD []).length).map
      (fun x => x / (sumAbsCols w (w.headD []).length).sum)).length
      = (w.headD []).length := by
    rw [List.length_map, hslen]
  refine ⟨?_, ?_, ?_, rfl, ?_⟩
  · simp only [plot_lagged_weights]
    exact List.map_fst_zip _ _ (by rw [hllen, hnormlen])
  · intro b hb
    simp only [plot_lagged_weights] at hb
    have hsnd := (List.of_mem_zip hb).2
    obtain ⟨x, hx, hxe⟩ := List.mem_map.mp hsnd
    rw [← hxe]
    exact div_nonneg (sumAbsCols_nonneg w _ x hx) (le_of_lt htotpos)
  · simp only [plot_lagged_weights]
    rw [List.map_snd_zip _ _ (by rw [hllen, hnormlen]), sum_map_div,
      div_self (ne_of_gt htotpos)]
  · intro f
    have hrow : (w.getD (f - 1) []).length ≤ (w.headD []).length := by
      by_cases hf : f - 1 < w.length
      · have hmem : w.getD (f - 1) [] ∈ w := by
          rw [List.getD_eq_getElem w [] hf]
          exact List.getElem_mem hf
        rw [hrect _ hmem]
      · have hnil : w.getD (f - 1) [] = [] := by
          rw [List.getD_eq_getElem?_getD, List.getElem?_eq_none (by omega : w.length ≤ f - 1)]
          rfl
        rw [hnil]
        exact Nat.zero_le _
    simp only [plot_lagged_weights]
    exact List.map_snd_zip _ _ (by rw [hllen]; exact hrow)

/-- Concrete matrix for the C10 witness: one 2-lag AR weight matrix for
two forecast horizons with a nonzero entry. -/
def wLagged : List (List ℚ) := [[1, -2], [0, 3]]

theorem C10_witness :
    ((∀ r ∈ wLagged, r.length = (wLagged.headD []).length)
      ∧ (∃ r ∈ wLagged, ∃ x ∈ r, x ≠ 0))
  ∧ (((plot_lagged_weights wLagged "AR" none).bars.map Prod.fst
        = ((List.range (wLagged.headD []).length).map (fun k => k + 1)).reverse)
      ∧ (∀ b ∈ (plot_lagged_weights wLagged "AR" none).bars, 0 ≤ b.2)
      ∧ ((plot_lagged_weights wLagged "AR" none).bars.map Prod.snd).sum = 1
      ∧ (plot_lagged_weights wLagged "AR" none).as_percent = true
      ∧ (∀ f : ℕ, (plot_lagged_weights wLagged "AR" (some f)).bars.map Prod.snd
          = wLagged.getD (f - 1) [])) :=
  ⟨⟨by decide, by decide⟩,
   C10_lagged_weights_relevance wLagged "AR" (by decide) (by decide)⟩

/-! ### Claim C1 -/

/-- C1: for every forecast table and every Uncertainty descriptor rendered
by `get_forecast_component_props` with `fill` set, exactly one trace is
emitted, drawn as a region filled down to zero (`tozeroy`), and its
y-values equal — elementwise over the rows where the quantile column is
non-absent — the quantile column minus the base point-prediction column
(`yhat{num_overplot}` when `num_overplot` is given, else `yhat1`); in
particular, when the base column equals the quantile column at every row,
every drawn y-value is zero. -/
theorem C1_uncertainty_fill_is_difference (tbl : FTable) (comp_name plot_name : String)
    (multiplicative : Bool) (num_overplot : Option ℕ)
    (hunc : strContains (strLower plot_name) "uncertainty" = true)
    (hres : strContains comp_name "residual" = false) :
    (get_forecast_component_props tbl comp_name (some plot_name) multiplicative false none
        false true num_overplot).traces
      = [⟨comp_name,
          List.zipWith osub
            (maskFilter ((tbl.col comp_name).map Option.isSome) (tbl.col comp_name))
            (maskFilter ((tbl.col comp_name).map Option.isSome)
              (tbl.col ("yhat" ++ toString (num_overplot.getD 1)))),
          false, some "tozeroy", none, true⟩]
  ∧ (tbl.col ("yhat" ++ toString (num_overplot.getD 1)) = tbl.col comp_name →
      ∀ tr ∈ (get_forecast_component_props tbl comp_name (some plot_name) multiplicative
          false none false true num_overplot).traces,
        ∀ v ∈ tr.y, v = some 0) := by
  have h1 : (get_forecast_component_props tbl comp_name (some plot_name) multiplicative false
      none false true num_overplot).traces
      = [⟨comp_name,
          List.zipWith osub
            (maskFilter ((tbl.col comp_name).map Option.isSome) (tbl.col comp_name))
            (maskFilter ((tbl.col comp_name).map Option.isSome)
              (tbl.col ("yhat" ++ toString (num_overplot.getD 1)))),
          false, some "tozeroy", none, true⟩] := by
    simp [get_forecast_component_props, residProcess, hunc, hres]
  refine ⟨h1, ?_⟩
  intro hcols tr htr v hv
  rw [h1] at htr
  rcases List.mem_singleton.mp htr with rfl
  rw [hcols] at hv
  exact zipWith_osub_maskFilter_self _ v hv

/-- Concrete table for the C1 witness: the 90% quantile column equals the
base `yhat1` column, with a NaN row in the middle. -/
def tblUncertainty : FTable :=
  ⟨[0, 1, 2], ["ds", "y", "yhat1", "yhat1 90.0%"],
   fun c => if c = "yhat1 90.0%" then [some 1, none, some 3]
            else if c = "yhat1" then [some 1, none, some 3] else []⟩

theorem C1_witness :
    (strContains (strLower "Uncertainty") "uncertainty" = true
      ∧ strContains "yhat1 90.0%" "residual" = false)
  ∧ ((get_forecast_component_props tblUncertainty "yhat1 90.0%" (some "Uncertainty") false
        false none false true none).traces
      = [⟨"yhat1 90.0%",
          List.zipWith osub
            (maskFilter ((tblUncertainty.col "yhat1 90.0%").map Option.isSome)
              (tblUncertainty.col "yhat1 90.0%"))
            (maskFilter ((tblUncertainty.col "yhat1 90.0%").map Option.isSome)
              (tblUncertainty.col ("yhat" ++ toString ((none : Option ℕ).getD 1)))),
          false, some "tozeroy", none, true⟩]
      ∧ (tblUncertainty.col ("yhat" ++ toString ((none : Option ℕ).getD 1))
            = tblUncertainty.col "yhat1 90.0%" →
          ∀ tr ∈ (get_forecast_component_props tblUncertainty "yhat1 90.0%"
              (some "Uncertainty") false false none false true none).traces,
            ∀ v ∈ tr.y, v = some 0)) :=
  ⟨⟨by decide, by decide⟩,
   C1_uncertainty_fill_is_difference tblUncertainty "yhat1 90.0%" "Uncertainty" false none
     (by decide) (by decide)⟩

/-! ### Claim C4 -/

/-- C4: for every forecast table, the last y-value of every residual trace
is exactly zero, regardless of the value stored in the table's last
residual row: for the single-horizon residual descriptor rendered by
`get_forecast_component_props` (bar, no rolling, as the selector emits
it), for every overlay trace of the multi-horizon residual descriptor
rendered by `get_multiforecast_component_props`, and for the
single-column path of `get_multiforecast_component_props`. -/
theorem C4_residual_last_value_zero :
    (∀ (tbl : FTable) (comp_name plot_name : String),
      strContains comp_name "residual" = true →
      strContains (strLower plot_name) "uncertainty" = false →
      maskFilter ((tbl.col comp_name).map Option.isSome) (tbl.col comp_name) ≠ [] →
      ∀ tr ∈ (get_forecast_component_props tbl comp_name (some plot_name) false true none
          false false none).traces, tr.y.getLast? = some (some 0))
  ∧ (∀ (tbl : FTable) (comp_name plot_name : String) (N : ℕ),
      strContains comp_name "residual" = true →
      (∀ j, j < N → maskFilter (mfMask tbl comp_name (some N))
          (tbl.col (comp_name ++ toString (j + 1))) ≠ []) →
      ∀ tr ∈ (get_multiforecast_component_props tbl comp_name (some plot_name) false true 1
          (some N)).traces, tr.y.getLast? = some (some 0))
  ∧ (∀ (tbl : FTable) (comp_name plot_name : String),
      strContains comp_name "residual" = true →
      maskFilter ((tbl.col comp_name).map Option.isSome) (tbl.col comp_name) ≠ [] →
      ∀ tr ∈ (get_multiforecast_component_props tbl comp_name (some plot_name) false true 1
          none).traces, tr.y.getLast? = some (some 0)) := by
  refine ⟨?_, ?_, ?_⟩
  · intro tbl c p hres hunc hne tr htr
    simp [get_forecast_component_props, residProcess, hres, hunc] at htr
    subst htr
    exact setLast_getLast _ _ hne
  · intro tbl c p N hres hne tr htr
    simp [get_multiforecast_component_props, residProcess, hres] at htr
    obtain ⟨i, hi, rfl⟩ := htr
    exact setLast_getLast _ _ (hne i hi)
  · intro tbl c p hres hne tr htr
    simp [get_multiforecast_component_props, mfMask, residProcess, hres] at htr
    subst htr
    exact setLast_getLast _ _ hne

/-- Concrete table for the C4 witness: residual columns with non-zero
last values. -/
def tblResidual : FTable :=
  ⟨[0, 1, 2], ["ds", "y", "residual1", "residual2"],
   fun c => if c = "residual1" then [some 5, some (-7), none]
            else if c = "residual2" then [none, some 4, some 9] else []⟩

theorem C4_witness :
    (strContains "residual2" "residual" = true
      ∧ strContains (strLower "Residuals (2)-ahead") "uncertainty" = false
      ∧ strContains "residual" "residual" = true)
  ∧ (∀ tr ∈ (get_forecast_component_props tblResidual "residual2"
        (some "Residuals (2)-ahead") false true none false false none).traces,
      tr.y.getLast? = some (some 0))
  ∧ (∀ tr ∈ (get_multiforecast_component_props tblResidual "residual"
        (some "Residuals") false true 1 (some 2)).traces,
      tr.y.getLast? = some (some 0))
  ∧ (∀ tr ∈ (get_multiforecast_component_props tblResidual "residual2"
        (some "Residuals") false true 1 none).traces,
      tr.y.getLast? = some (some 0)) :=
  ⟨⟨by decide, by decide, by decide⟩,
   C4_residual_last_value_zero.1 tblResidual "residual2" "Residuals (2)-ahead"
     (by decide) (by decide) (by decide),
   C4_residual_last_value_zero.2.1 tblResidual "residual" "Residuals" 2
     (by decide) (by decide),
   C4_residual_last_value_zero.2.2 tblResidual "residual2" "Residuals"
     (by decide) (by decide)⟩

/-! ### Claim C3 -/

theorem overlayAlpha_decimal_formula (i : ℕ) :
    overlayAlpha i = 0.2 + 1.2 * (1 - 0.2) / ((i : ℚ) + 1.2) := by
  unfold overlayAlpha
  norm_num

theorem overlayAlpha_strict_anti (i j : ℕ) (h : i < j) :
    overlayAlpha j < overlayAlpha i := by
  unfold overlayAlpha
  have hij : (i : ℚ) < j := by exact_mod_cast h
  have h1 : (0 : ℚ) < (i : ℚ) + 1 * (6/5) := by positivity
  have h2 : (i : ℚ) + 1 * (6/5) < (j : ℚ) + 1 * (6/5) := by linarith
  have h3 := div_lt_div_of_pos_left (by norm_num : (0 : ℚ) < (6/5) * (1 - 1/5)) h1 h2
  linarith

/-- C3: for every multi-horizon overlay component with overlay count
`N ≥ 1` (and enough matching columns to satisfy the source's assert),
`get_multiforecast_component_props` emits exactly `N` overlay traces in
descending horizon order — the trace at position `j` draws horizon `N - j`
(so horizon `N` comes first and horizon `1` last, topmost) at opacity
`overlayAlpha (N - 1 - j)`; the opacity formula equals the claimed
`0.2 + 1.2 * (1 - 0.2) / (i + 1.2)`, and the opacity is strictly
increasing as the loop index (horizon minus one) decreases. -/
theorem C3_overlay_order_and_opacity (tbl : FTable) (comp_name plot_name : String)
    (bar : Bool) (N : ℕ) (hN : 1 ≤ N)
    (hassert : N ≤ (tbl.columns.filter (fun c => strStarts c comp_name)).length) :
    (get_multiforecast_component_props tbl comp_name (some plot_name) false bar 1
        (some N)).traces.length = N
  ∧ (∀ j, j < N →
      (get_multiforecast_component_props tbl comp_name (some plot_name) false bar 1
          (some N)).traces[j]?
        = some ⟨plot_name,
            residProcess comp_name (maskFilter (mfMask tbl comp_name (some N))
              (tbl.col (comp_name ++ toString (N - j)))),
            bar, none, some (overlayAlpha (N - 1 - j)), false⟩)
  ∧ (∀ i : ℕ, overlayAlpha i = 0.2 + 1.2 * (1 - 0.2) / ((i : ℚ) + 1.2))
  ∧ (∀ i j : ℕ, i < j → overlayAlpha j < overlayAlpha i) := by
  refine ⟨?_, ?_, overlayAlpha_decimal_formula, overlayAlpha_strict_anti⟩
  · simp [get_multiforecast_component_props]
  · intro j hj
    have hjr : j < ((List.range N).reverse).length := by simp [hj]
    simp only [get_multiforecast_component_props, Option.isNone_some, Bool.false_or,
      List.append_nil, decide_eq_true_eq, Nat.lt_irrefl, if_false]
    rw [List.getElem?_map, List.getElem?_reverse (by simpa using hj)]
    rw [List.length_range, List.getElem?_range (by omega)]
    have harith : N - 1 - j + 1 = N - j := by omega
    simp [harith]

/-- Concrete table for the C3 witness: an AR component with two horizons. -/
def tblAR : FTable :=
  ⟨[0, 1, 2], ["ds", "y", "ar1", "ar2"],
   fun c => if c = "ar1" then [some 1, some 2, none]
            else if c = "ar2" then [none, some 3, some 4] else []⟩

theorem C3_witness :
    (1 ≤ 2 ∧ 2 ≤ (tblAR.columns.filter (fun c => strStarts c "ar")).length)
  ∧ ((get_multiforecast_component_props tblAR "ar" (some "Auto-Regression") false true 1
        (some 2)).traces.length = 2
      ∧ (∀ j, j < 2 →
          (get_multiforecast_component_props tblAR "ar" (some "Auto-Regression") false true 1
              (some 2)).traces[j]?
            = some ⟨"Auto-Regression",
                residProcess "ar" (maskFilter (mfMask tblAR "ar" (some 2))
                  (tblAR.col ("ar" ++ toString (2 - j)))),
                true, none, some (overlayAlpha (2 - 1 - j)), false⟩)
      ∧ (∀ i : ℕ, overlayAlpha i = 0.2 + 1.2 * (1 - 0.2) / ((i : ℚ) + 1.2))
      ∧ (∀ i j : ℕ, i < j → overlayAlpha j < overlayAlpha i)) :=
  ⟨⟨by decide, by decide⟩,
   C3_overlay_order_and_opacity tblAR "ar" "Auto-Regression" true 2 (by decide) (by decide)⟩

/-! ### Claim C5 -/

theorem windowAt_eq_centeredWindow (W n i : ℕ) (hW : 1 ≤ W) :
    windowAt W n i = centeredWindow W n i := by
  unfold windowAt centeredWindow
  apply List.filter_congr
  intro j _
  have h : decide (i + 1 + (W - 1) / 2 ≤ j + W) = decide (i - W / 2 ≤ j) :=
    decide_eq_decide.mpr (by omega)
  rw [h]

theorem rollingMeanCenter_getD (W : ℕ) (xs : List ℚ) (i : ℕ) (h : i < xs.length) :
    (rollingMeanCenter W xs).getD i 0 = meanAt xs (windowAt W xs.length i) := by
  unfold rollingMeanCenter
  rw [List.getD_eq_getElem _ _ (by simpa using h)]
  simp [List.getElem_map, List.getElem_range]

theorem filter_between_eq_single (n i : ℕ) (h : i < n) :
    (List.range n).filter (fun j => decide (i ≤ j) && decide (j ≤ i)) = [i] := by
  induction n with
  | zero => omega
  | succ n ih =>
    rw [List.range_succ, List.filter_append]
    by_cases hi : i < n
    · rw [ih hi]
      have hlast : List.filter (fun j => decide (i ≤ j) && decide (j ≤ i)) [n] = [] := by
        simp only [List.filter, List.filter_nil]
        have hf : (decide (i ≤ n) && decide (n ≤ i)) = false := by
          simp only [Bool.and_eq_false_iff, decide_eq_false_iff_not]
          omega
        rw [hf]
      rw [hlast]
      simp
    · have hin : i = n := by omega
      subst hin
      have h1 : (List.range i).filter (fun j => decide (i ≤ j) && decide (j ≤ i)) = [] := by
        rw [List.filter_eq_nil_iff]
        intro a ha
        have haa := List.mem_range.mp ha
        simp only [Bool.and_eq_true, decide_eq_true_eq, not_and]
        omega
      rw [h1]
      simp

theorem windowAt_one (n i : ℕ) (h : i < n) : windowAt 1 n i = [i] := by
  unfold windowAt
  have hc : ∀ j, (decide (i + 1 + (1 - 1) / 2 ≤ j + 1) && decide (j ≤ i + (1 - 1) / 2))
      = (decide (i ≤ j) && decide (j ≤ i)) := by
    intro j
    have e1 : decide (i + 1 + (1 - 1) / 2 ≤ j + 1) = decide (i ≤ j) :=
      decide_eq_decide.mpr (by omega)
    have e2 : decide (j ≤ i + (1 - 1) / 2) = decide (j ≤ i) :=
      decide_eq_decide.mpr (by omega)
    rw [e1, e2]
  rw [List.filter_congr (fun j _ => hc j)]
  exact filter_between_eq_single n i h

theorem rollingMeanCenter_one (xs : List ℚ) : rollingMeanCenter 1 xs = xs := by
  apply List.ext_getElem
  · simp [rollingMeanCenter]
  · intro i h1 h2
    unfold rollingMeanCenter
    simp only [List.getElem_map, List.getElem_range]
    rw [windowAt_one _ _ h2]
    simp [meanAt, List.getElem?_eq_getElem h2]

/-- C5: for every component rendered by `get_forecast_component_props`
with a rolling window `W ≥ 1`, the first emitted trace is the underlay
whose y-values are the centered rolling mean of the (NaN-filtered)
component column; the rolling mean's value at every index equals the mean
of the `W` values centered at that index clipped at the edges to the
available data (minimum period one), and for `W = 1` the rolling mean
reproduces the raw series exactly. -/
theorem C5_rolling_underlay (tbl : FTable) (comp_name plot_name : String)
    (bar add_x : Bool) (W : ℕ) (hW : 1 ≤ W) :
    ((get_forecast_component_props tbl comp_name (some plot_name) false bar (some W) add_x
        false none).traces.head?.map PlotTrace.y)
      = some ((rollingMeanCenter W
          ((maskFilter ((tbl.col comp_name).map Option.isSome)
            (tbl.col comp_name)).reduceOption)).map some)
  ∧ (∀ (xs : List ℚ) (i : ℕ), i < xs.length →
      (rollingMeanCenter W xs).getD i 0 = centeredClippedMean W xs i)
  ∧ (W = 1 → ∀ xs : List ℚ, rollingMeanCenter W xs = xs) := by
  refine ⟨?_, ?_, ?_⟩
  · cases bar <;> cases add_x <;> simp [get_forecast_component_props]
  · intro xs i h
    rw [rollingMeanCenter_getD W xs i h]
    unfold centeredClippedMean
    rw [windowAt_eq_centeredWindow W xs.length i hW]
  · rintro rfl xs
    exact rollingMeanCenter_one xs

/-- Concrete table for the C5 witness: a trend component with a
three-point column and window 2. -/
def tblRolling : FTable :=
  ⟨[0, 1, 2], ["ds", "y", "trend"],
   fun c => if c = "trend" then [some 1, some 2, some 4] else []⟩

theorem C5_witness :
    (1 ≤ 2)
  ∧ (((get_forecast_component_props tblRolling "trend" (some "Trend") false false (some 2)
        false false none).traces.head?.map PlotTrace.y)
      = some ((rollingMeanCenter 2
          ((maskFilter ((tblRolling.col "trend").map Option.isSome)
            (tblRolling.col "trend")).reduceOption)).map some)
      ∧ (∀ (xs : List ℚ) (i : ℕ), i < xs.length →
          (rollingMeanCenter 2 xs).getD i 0 = centeredClippedMean 2 xs i)
      ∧ (2 = 1 → ∀ xs : List ℚ, rollingMeanCenter 2 xs = xs)) :=
  ⟨by decide,
   C5_rolling_underlay tblRolling "trend" "Trend" false false 2 (by decide)⟩

end NPViz
